import Mathlib

/-!
# Verification of the NeonHost connectivity-diagnostics probe

Shallow embedding of the connectivity probing engine of
`diagnostico.neonhost.com.br`:

* `performRealPortTest` (real TCP probe route): per-port sampling of 5
  connection attempts, latency/jitter aggregation and rounding;
* `simulatePortTest` (simulated route `src/app/api/test-connectivity/route.ts`):
  random-draw-driven simulation with the same response shape;
* the `POST` aggregators: fan-out/fan-in over the configured target ports,
  average jitter over successful ports;
* `checkRateLimit`: the per-IP fixed-window rate limiter.

Nondeterministic inputs of the code (socket connect outcomes, `Math.random()`
draws, completion interleavings of the concurrent per-port tasks, `Date.now()`)
are passed as explicit parameters.  Latencies and derived statistics are
modelled as rationals; JavaScript `Math.round` / `Math.floor` are embedded
explicitly.
-/

/-- JavaScript `Math.round` for finite inputs: `⌊x + 1/2⌋` (half up). -/
def jsRound (q : ℚ) : ℤ := ⌊q + 1/2⌋

/-- The rounding performed at return sites: `Math.round(x * 10) / 10`. -/
def round1 (q : ℚ) : ℚ := (jsRound (q * 10) : ℚ) / 10

/-- Round half away from zero, as named by the spec (for the refinement
comparison with `jsRound`). -/
def roundHalfAwayFromZero (q : ℚ) : ℤ := if 0 ≤ q then ⌊q + 1/2⌋ else ⌈q - 1/2⌉

/-- The spec's reading of the 1-decimal rounding: round half away from zero on
the value scaled by 10. -/
def specRound1 (q : ℚ) : ℚ := (roundHalfAwayFromZero (q * 10) : ℚ) / 10

/-- Failure reasons of a TCP connection attempt (`measureTcpLatency` rejects
with an error or a timeout; the concrete reason is never inspected). -/
inductive ConnErr where
  | timeout
  | refused
  | unreachable
  | other
deriving DecidableEq, Repr

/-- Per-port test result shape returned by `performRealPortTest` /
`simulatePortTest`. -/
structure PortResult where
  success : Bool
  latency : ℚ
  jitter : ℚ
  packetsSent : ℕ
  packetsReceived : ℕ
  packetsLost : ℕ
deriving DecidableEq, Repr

/-- `reduce((a, b) => a + b, 0)` on a list of numbers. -/
def sumList (l : List ℚ) : ℚ := l.foldl (· + ·) 0

/-- The ordered list of latencies collected by the attempt loop of
`performRealPortTest`: attempt `i`'s outcome is `attempt i`; failed attempts
contribute no sample. -/
def latenciesOf (attempt : ℕ → Except ConnErr ℚ) : List ℚ :=
  (List.range 5).filterMap fun i => (attempt i).toOption

/-- `avgLatency`: `latencies.length > 0 ? sum / length : 0`. -/
def avgOf (l : List ℚ) : ℚ := if 0 < l.length then sumList l / l.length else 0

/-- The absolute differences `|latencies[i] - latencies[i-1]|` accumulated by
the jitter loop, in loop order. -/
def consecAbsDiffs (l : List ℚ) : List ℚ :=
  (l.zip l.tail).map fun p => |p.2 - p.1|

/-- The jitter computation of `performRealPortTest`: `jitterSum` and
`jitterCount` are accumulated only when `latencies.length > 1`, and
`jitter = jitterCount > 0 ? jitterSum / jitterCount : 0`. -/
def jitterRawOf (l : List ℚ) : ℚ :=
  let jitterSum := if 1 < l.length then sumList (consecAbsDiffs l) else 0
  let jitterCount := if 1 < l.length then (consecAbsDiffs l).length else 0
  if 0 < jitterCount then jitterSum / (jitterCount : ℚ) else 0

/-- `performRealPortTest` of the real probe route, as a function of the attempt
outcomes (`attempt i` is the result of the `i`-th `measureTcpLatency` call;
failures are caught inside the loop). -/
def performRealPortTest (attempt : ℕ → Except ConnErr ℚ) : PortResult :=
  let latencies := latenciesOf attempt
  let packetsReceived := latencies.length
  { success := decide (0 < packetsReceived)
    latency := round1 (avgOf latencies)
    jitter := round1 (jitterRawOf latencies)
    packetsSent := 5
    packetsReceived := packetsReceived
    packetsLost := 5 - packetsReceived }

/-- Spec-side consecutive differences, written index-wise as in the spec:
`|latency[i] - latency[i-1]|` for `i = 1 .. length - 1`. -/
def specConsecDiffs (l : List ℚ) : List ℚ :=
  (List.range (l.length - 1)).map fun i => |l.getD (i + 1) 0 - l.getD i 0|

/-- Spec-side jitter: arithmetic mean of `|latency[i] - latency[i-1]|` over
consecutive pairs of successful samples in temporal order; `0` if fewer than
two samples. -/
def specJitterMean (l : List ℚ) : ℚ :=
  if l.length < 2 then 0
  else (specConsecDiffs l).sum / ((specConsecDiffs l).length : ℚ)

/-- The simulated latency samples of `simulatePortTest`:
`max(1, (10 + rB i * 40) + (rV i * 15 - 7.5))` for the five packets, where
`rB i` and `rV i` are the two `Math.random()` draws of iteration `i`. -/
def simLatencies (rB rV : ℕ → ℚ) : List ℚ :=
  (List.range 5).map fun i => max 1 (10 + rB i * 40 + (rV i * 15 - 7.5))

/-- `successRate` of `simulatePortTest`: `0.95` for common ports (80, 443),
otherwise `0.7 + Math.random() * 0.25` with draw `rS`. -/
def simSuccessRate (port : ℕ) (rS : ℚ) : ℚ :=
  if port = 80 ∨ port = 443 then 0.95 else 0.7 + rS * 0.25

/-- `simulatePortTest` of the simulated route, as a function of the port and
the random draws (`rS` for the success rate, `rB`/`rV` per-packet latency
draws). -/
def simulatePortTest (port : ℕ) (rS : ℚ) (rB rV : ℕ → ℚ) : PortResult :=
  let latencies := simLatencies rB rV
  let avgLatency := sumList latencies / (latencies.length : ℚ)
  let jitter :=
    if 1 < latencies.length then
      sumList (consecAbsDiffs latencies) / ((latencies.length - 1 : ℕ) : ℚ)
    else 0
  let packetsReceived := (⌊(5 : ℚ) * simSuccessRate port rS⌋).toNat
  { success := decide (0 < packetsReceived)
    latency := round1 avgLatency
    jitter := round1 jitter
    packetsSent := 5
    packetsReceived := packetsReceived
    packetsLost := 5 - packetsReceived }

/-- A configured target port (port number, label, human description). -/
structure TargetPort where
  port : ℕ
  name : String
  description : String
deriving DecidableEq, Repr

/-- The static target list of the real probe route. -/
def TEST_PORTS : List TargetPort :=
  [⟨80, "HTTP", "Web Server"⟩,
   ⟨443, "HTTPS", "Web Server Seguro"⟩,
   ⟨3306, "MySQL", "Banco de Dados MySQL"⟩,
   ⟨30120, "FiveM", "Servidor FiveM"⟩]

/-- The real route's aggregate jitter:
`validJitters = results.filter(success).map(jitter)`, then
`validJitters.length > 0 ? sum / length : 0`. -/
def avgJitterOf (results : List PortResult) : ℚ :=
  let validJitters := (results.filter fun r => r.success).map fun r => r.jitter
  if 0 < validJitters.length then sumList validJitters / (validJitters.length : ℚ)
  else 0

/-- Spec-side aggregate jitter, from the spec's words: the mean of `jitterMs`
over entries with `success = true`, `0` if that set is empty. -/
def specAvgJitter (results : List PortResult) : ℚ :=
  let succ := results.filter fun r => r.success
  if succ.isEmpty then 0 else (succ.map fun r => r.jitter).sum / (succ.length : ℚ)

/-- The simulated route's aggregate jitter:
`testResults.reduce((sum, r) => sum + r.jitter, 0) / testResults.length`
(no success filter). -/
def avgJitterSim (results : List PortResult) : ℚ :=
  (results.foldl (fun s r => s + r.jitter) 0) / (results.length : ℚ)

/-- `Promise.all` fan-out/fan-in: each task `i` completes at time `ct i`; the
join processes completions in completion-time order, writing each result into
the slot of the task's original index, and finally reads the slots in index
order. -/
def fillSlots {β : Type} (g : ℕ → β) (order : List ℕ) (init : List β) : List β :=
  order.foldl (fun acc i => acc.set i (g i)) init

/-- Run `worker` over `tasks` concurrently under completion schedule `ct` and
join the results in input order, as `Promise.all` does. -/
def promiseAllSched {α β : Type} (tasks : List α) (worker : α → β)
    (ct : ℕ → ℕ) : List β :=
  let order := (List.range tasks.length).insertionSort fun i j => ct i ≤ ct j
  (fillSlots (fun i => tasks[i]?.map worker) order
      (List.replicate tasks.length none)).filterMap id

/-- The aggregate report of the real route's `POST` handler. -/
structure ProbeReport where
  results : List (TargetPort × PortResult)
  avgJitter : ℚ
deriving DecidableEq, Repr

/-- The real route's `POST` pipeline after rate limiting: run
`performRealPortTest` for every configured port concurrently (completion
schedule `ct`), keep input order, and attach the rounded aggregate jitter.
`attempt p i` is the outcome of attempt `i` against port `p`. -/
def runProbeReal (targets : List TargetPort)
    (attempt : ℕ → ℕ → Except ConnErr ℚ) (ct : ℕ → ℕ) : ProbeReport :=
  let testResults :=
    promiseAllSched targets (fun t => (t, performRealPortTest (attempt t.port))) ct
  { results := testResults
    avgJitter := round1 (avgJitterOf (testResults.map Prod.snd)) }

/-- Per-IP rate-limit record stored in `rateLimitMap`. -/
structure RateRecord where
  count : ℕ
  resetTime : ℕ
deriving DecidableEq, Repr

def RATE_LIMIT : ℕ := 10

def RATE_WINDOW : ℕ := 60 * 1000

/-- The in-memory `rateLimitMap`, keyed by client IP. -/
abbrev RateMap := String → Option RateRecord

/-- `checkRateLimit`: fresh or expired records restart at count 1 with a new
window; a saturated record (`count >= RATE_LIMIT`) rejects; otherwise the
count is incremented in place. `now` is the `Date.now()` reading. -/
def checkRateLimit (now : ℕ) (m : RateMap) (ip : String) : Bool × RateMap :=
  match m ip with
  | none => (true, Function.update m ip (some ⟨1, now + RATE_WINDOW⟩))
  | some record =>
    if record.resetTime < now then
      (true, Function.update m ip (some ⟨1, now + RATE_WINDOW⟩))
    else if RATE_LIMIT ≤ record.count then (false, m)
    else (true, Function.update m ip (some ⟨record.count + 1, record.resetTime⟩))

/-- A sequence of `checkRateLimit` calls for one IP at the given times,
returning the per-call verdicts and the final map. -/
def runCalls (m : RateMap) (ip : String) (ts : List ℕ) : List Bool × RateMap :=
  match ts with
  | [] => ([], m)
  | t :: rest =>
    let r := checkRateLimit t m ip
    let rr := runCalls r.2 ip rest
    (r.1 :: rr.1, rr.2)

/-- Evaluate `jsRound` on concrete rationals via the floor characterization. -/
lemma jsRound_eq (q : ℚ) (z : ℤ) (h1 : (z : ℚ) ≤ q + 1/2) (h2 : q + 1/2 < z + 1) :
    jsRound q = z := Int.floor_eq_iff.mpr ⟨h1, h2⟩

/-- Evaluate `|a|` on concrete rationals. -/
lemma abs_eval (a c : ℚ) (h : a = c ∨ a = -c) (hc : 0 ≤ c) : |a| = c := by
  rcases h with rfl | rfl
  · exact abs_of_nonneg hc
  · rw [abs_neg]; exact abs_of_nonneg hc

lemma foldl_add_eq (l : List ℚ) : ∀ a : ℚ, l.foldl (· + ·) a = a + l.sum := by
  induction l with
  | nil => simp
  | cons x xs ih => intro a; simp [ih, add_assoc]

lemma sumList_eq_sum (l : List ℚ) : sumList l = l.sum := by
  simp [sumList, foldl_add_eq]

lemma foldl_add_proj {α : Type} (f : α → ℚ) (l : List α) :
    ∀ a : ℚ, l.foldl (fun s r => s + f r) a = a + (l.map f).sum := by
  induction l with
  | nil => simp
  | cons x xs ih => intro a; simp [ih, add_assoc]

lemma length_consecAbsDiffs (l : List ℚ) :
    (consecAbsDiffs l).length = l.length - 1 := by
  simp [consecAbsDiffs, List.length_zip, List.length_tail]

lemma consecAbsDiffs_eq_spec (l : List ℚ) : consecAbsDiffs l = specConsecDiffs l := by
  apply List.ext_getElem
  · simp [length_consecAbsDiffs, specConsecDiffs]
  · intro i h1 h2
    have hi : i < l.length - 1 := by
      simpa [length_consecAbsDiffs] using h1
    have hi1 : i + 1 < l.length := by omega
    have hi0 : i < l.length := by omega
    have hit : i < l.tail.length := by simp [List.length_tail]; omega
    simp [consecAbsDiffs, specConsecDiffs, List.getElem_zip, List.getElem_tail,
      List.getD_eq_getElem, hi0, hi1]

lemma jitterRawOf_eq_spec (l : List ℚ) : jitterRawOf l = specJitterMean l := by
  unfold jitterRawOf specJitterMean
  rcases Nat.lt_or_ge 1 l.length with h | h
  · have hlen : (consecAbsDiffs l).length = l.length - 1 := length_consecAbsDiffs l
    have hpos : 0 < (consecAbsDiffs l).length := by omega
    have hnot : ¬ l.length < 2 := by omega
    rw [if_pos h, if_pos h, if_pos hpos, if_neg hnot, sumList_eq_sum, consecAbsDiffs_eq_spec]
  · have hlt : l.length < 2 := by omega
    have hnot : ¬ 1 < l.length := by omega
    simp [hnot, hlt]

lemma specJitterMean_nonneg (l : List ℚ) : 0 ≤ specJitterMean l := by
  unfold specJitterMean
  split
  · exact le_refl 0
  · apply div_nonneg
    · apply List.sum_nonneg
      intro x hx
      rcases List.mem_map.mp ((consecAbsDiffs_eq_spec l) ▸ hx) with ⟨p, _, rfl⟩
      exact abs_nonneg _
    · positivity

lemma round1_nonneg {q : ℚ} (h : 0 ≤ q) : 0 ≤ round1 q := by
  unfold round1 jsRound
  apply div_nonneg _ (by norm_num)
  have : (0 : ℤ) ≤ ⌊q * 10 + 1/2⌋ := Int.le_floor.mpr (by push_cast; nlinarith)
  exact_mod_cast this

lemma round1_zero : round1 0 = 0 := by
  rw [round1, jsRound_eq _ 0 (by norm_num) (by norm_num)]
  norm_num

lemma round1_eq_specRound1 {q : ℚ} (h : 0 ≤ q) : round1 q = specRound1 q := by
  unfold round1 specRound1 jsRound roundHalfAwayFromZero
  rw [if_pos (by positivity)]

lemma latenciesOf_length_le (attempt : ℕ → Except ConnErr ℚ) :
    (latenciesOf attempt).length ≤ 5 := by
  have := List.length_filterMap_le (fun i => (attempt i).toOption) (List.range 5)
  simpa [latenciesOf] using this

example : round1 (56/5 : ℚ) = 56/5 := by
  rw [round1, jsRound_eq _ 112 (by norm_num) (by norm_num)]
  norm_num
example : round1 (2 : ℚ) = 2 := by
  rw [round1, jsRound_eq _ 20 (by norm_num) (by norm_num)]
  norm_num
example : jsRound (112.5 : ℚ) = 113 := jsRound_eq _ 113 (by norm_num) (by norm_num)
example :
    latenciesOf (fun i => Except.ok (([10, 12, 11, 13, 10] : List ℚ).getD i 0))
      = [10, 12, 11, 13, 10] := rfl

lemma performRealPortTest_fields (attempt : ℕ → Except ConnErr ℚ) :
    performRealPortTest attempt
      = { success := decide (0 < (latenciesOf attempt).length)
          latency := round1 (avgOf (latenciesOf attempt))
          jitter := round1 (jitterRawOf (latenciesOf attempt))
          packetsSent := 5
          packetsReceived := (latenciesOf attempt).length
          packetsLost := 5 - (latenciesOf attempt).length } := rfl

lemma avgOf_nil : avgOf [] = 0 := by simp [avgOf]

lemma jitterRawOf_nil : jitterRawOf [] = 0 := by simp [jitterRawOf]

/-- C1: the jitter returned by `performRealPortTest` is (the 1-decimal rounding
of) the arithmetic mean of `|latency[i] - latency[i-1]|` over consecutive pairs
of successful attempts in temporal order, is 0 when fewer than 2 attempts
succeed, and is always non-negative. -/
theorem jitter_is_mean_consecutive_abs_diffs (attempt : ℕ → Except ConnErr ℚ) :
    jitterRawOf (latenciesOf attempt) = specJitterMean (latenciesOf attempt)
    ∧ (performRealPortTest attempt).jitter
        = round1 (specJitterMean (latenciesOf attempt))
    ∧ ((latenciesOf attempt).length < 2 → (performRealPortTest attempt).jitter = 0)
    ∧ 0 ≤ (performRealPortTest attempt).jitter := by
  refine ⟨jitterRawOf_eq_spec _, ?_, ?_, ?_⟩
  · rw [performRealPortTest_fields, jitterRawOf_eq_spec]
  · intro h
    rw [performRealPortTest_fields]
    show round1 (jitterRawOf (latenciesOf attempt)) = 0
    rw [jitterRawOf_eq_spec, specJitterMean, if_pos h, round1_zero]
  · rw [performRealPortTest_fields]
    show 0 ≤ round1 (jitterRawOf (latenciesOf attempt))
    rw [jitterRawOf_eq_spec]
    exact round1_nonneg (specJitterMean_nonneg _)

/-- Witness for C1: with every attempt failing there are fewer than two
successful samples and the returned jitter is 0. -/
theorem jitter_is_mean_consecutive_abs_diffs_witness :
    (latenciesOf fun _ => Except.error ConnErr.timeout).length < 2
    ∧ (performRealPortTest fun _ => Except.error ConnErr.timeout).jitter = 0 :=
  ⟨by decide,
   (jitter_is_mean_consecutive_abs_diffs fun _ => Except.error ConnErr.timeout).2.2.1
     (by decide)⟩

/-- C4: `success` is true exactly when at least one packet was received, and a
fully failed port reports 0 latency and 0 jitter. -/
theorem success_iff_packets_received (attempt : ℕ → Except ConnErr ℚ) :
    ((performRealPortTest attempt).success = true
      ↔ 0 < (performRealPortTest attempt).packetsReceived)
    ∧ ((performRealPortTest attempt).packetsReceived = 0 →
        (performRealPortTest attempt).latency = 0
        ∧ (performRealPortTest attempt).jitter = 0) := by
  rw [performRealPortTest_fields]
  constructor
  · exact decide_eq_true_iff
  · intro h
    have hl : latenciesOf attempt = [] := List.length_eq_zero.mp h
    constructor
    · show round1 (avgOf (latenciesOf attempt)) = 0
      rw [hl, avgOf_nil, round1_zero]
    · show round1 (jitterRawOf (latenciesOf attempt)) = 0
      rw [hl, jitterRawOf_nil, round1_zero]

/-- Witness for C4: every attempt failing means zero packets received, success
false, and zero latency and jitter. -/
theorem success_iff_packets_received_witness :
    (performRealPortTest fun _ => Except.error ConnErr.unreachable).packetsReceived = 0
    ∧ (performRealPortTest fun _ => Except.error ConnErr.unreachable).latency = 0
    ∧ (performRealPortTest fun _ => Except.error ConnErr.unreachable).jitter = 0 :=
  ⟨by decide,
   (success_iff_packets_received fun _ => Except.error ConnErr.unreachable).2 (by decide)⟩

lemma simulatePortTest_fields (port : ℕ) (rS : ℚ) (rB rV : ℕ → ℚ) :
    simulatePortTest port rS rB rV
      = { success := decide (0 < (⌊(5 : ℚ) * simSuccessRate port rS⌋).toNat)
          latency := round1 (sumList (simLatencies rB rV) / ((simLatencies rB rV).length : ℚ))
          jitter := round1 (if 1 < (simLatencies rB rV).length then
              sumList (consecAbsDiffs (simLatencies rB rV))
                / (((simLatencies rB rV).length - 1 : ℕ) : ℚ)
            else 0)
          packetsSent := 5
          packetsReceived := (⌊(5 : ℚ) * simSuccessRate port rS⌋).toNat
          packetsLost := 5 - (⌊(5 : ℚ) * simSuccessRate port rS⌋).toNat } := rfl

lemma simReceived_bounds (port : ℕ) {rS : ℚ} (h0 : 0 ≤ rS) (h1 : rS < 1) :
    3 ≤ (⌊(5 : ℚ) * simSuccessRate port rS⌋).toNat
    ∧ (⌊(5 : ℚ) * simSuccessRate port rS⌋).toNat ≤ 4 := by
  unfold simSuccessRate
  by_cases hp : port = 80 ∨ port = 443
  · rw [if_pos hp]
    have h4 : ⌊(5 : ℚ) * 0.95⌋ = 4 := Int.floor_eq_iff.mpr (by norm_num)
    rw [h4]
    omega
  · rw [if_neg hp]
    have hlo : (3 : ℤ) ≤ ⌊(5 : ℚ) * (0.7 + rS * 0.25)⌋ :=
      Int.le_floor.mpr (by push_cast; nlinarith)
    have hhi : ⌊(5 : ℚ) * (0.7 + rS * 0.25)⌋ < 5 :=
      Int.floor_lt.mpr (by push_cast; nlinarith)
    omega

/-- C3: every PortResult satisfies `packetsSent = packetsReceived +
packetsLost`, and `packetsSent = 5` under the fixed default configuration —
for the real test and for the simulated one. -/
theorem packets_sent_conservation :
    (∀ attempt : ℕ → Except ConnErr ℚ,
      (performRealPortTest attempt).packetsSent
          = (performRealPortTest attempt).packetsReceived
            + (performRealPortTest attempt).packetsLost
        ∧ (performRealPortTest attempt).packetsSent = 5)
    ∧ (∀ (port : ℕ) (rS : ℚ) (rB rV : ℕ → ℚ), 0 ≤ rS → rS < 1 →
      (simulatePortTest port rS rB rV).packetsSent
          = (simulatePortTest port rS rB rV).packetsReceived
            + (simulatePortTest port rS rB rV).packetsLost
        ∧ (simulatePortTest port rS rB rV).packetsSent = 5) := by
  constructor
  · intro attempt
    rw [performRealPortTest_fields]
    have := latenciesOf_length_le attempt
    exact ⟨by simp; omega, rfl⟩
  · intro port rS rB rV h0 h1
    rw [simulatePortTest_fields]
    have := simReceived_bounds port h0 h1
    exact ⟨by simp; omega, rfl⟩

/-- Witness for C3: concrete instances of both conjuncts. -/
theorem packets_sent_conservation_witness :
    ((performRealPortTest fun _ => Except.error ConnErr.timeout).packetsSent
        = (performRealPortTest fun _ => Except.error ConnErr.timeout).packetsReceived
          + (performRealPortTest fun _ => Except.error ConnErr.timeout).packetsLost
      ∧ (performRealPortTest fun _ => Except.error ConnErr.timeout).packetsSent = 5)
    ∧ ((simulatePortTest 80 0 (fun _ => 0) fun _ => 0).packetsSent
        = (simulatePortTest 80 0 (fun _ => 0) fun _ => 0).packetsReceived
          + (simulatePortTest 80 0 (fun _ => 0) fun _ => 0).packetsLost
      ∧ (simulatePortTest 80 0 (fun _ => 0) fun _ => 0).packetsSent = 5) :=
  ⟨(packets_sent_conservation.1 fun _ => Except.error ConnErr.timeout),
   packets_sent_conservation.2 80 0 (fun _ => 0) (fun _ => 0) (le_refl 0) zero_lt_one⟩

/-- C9: the simulated port test always succeeds with 3 or 4 packets received
and 1 or 2 packets lost, whatever the port and the random draws. -/
theorem simulate_never_fails (port : ℕ) (rS : ℚ) (rB rV : ℕ → ℚ)
    (h0 : 0 ≤ rS) (h1 : rS < 1) :
    (simulatePortTest port rS rB rV).success = true
    ∧ 3 ≤ (simulatePortTest port rS rB rV).packetsReceived
    ∧ (simulatePortTest port rS rB rV).packetsReceived ≤ 4
    ∧ 1 ≤ (simulatePortTest port rS rB rV).packetsLost
    ∧ (simulatePortTest port rS rB rV).packetsLost ≤ 2 := by
  rw [simulatePortTest_fields]
  have h := simReceived_bounds port h0 h1
  refine ⟨?_, by simpa using h.1, by simpa using h.2, by simp; omega, by simp; omega⟩
  simp only [decide_eq_true_iff]
  omega

/-- Witness for C9 at port 80 with zero draws. -/
theorem simulate_never_fails_witness :
    (simulatePortTest 80 0 (fun _ => 0) fun _ => 0).success = true
    ∧ 3 ≤ (simulatePortTest 80 0 (fun _ => 0) fun _ => 0).packetsReceived
    ∧ (simulatePortTest 80 0 (fun _ => 0) fun _ => 0).packetsReceived ≤ 4
    ∧ 1 ≤ (simulatePortTest 80 0 (fun _ => 0) fun _ => 0).packetsLost
    ∧ (simulatePortTest 80 0 (fun _ => 0) fun _ => 0).packetsLost ≤ 2 :=
  simulate_never_fails 80 0 (fun _ => 0) (fun _ => 0) (le_refl 0) zero_lt_one

/-- C7: with the successful latency sequence [10, 12, 11, 13, 10] ms the real
port test returns `latency = 11.2` and `jitter = 2` (mean of 2, 1, 2, 3). -/
theorem concrete_latency_scenario :
    (performRealPortTest fun i =>
        Except.ok (([10, 12, 11, 13, 10] : List ℚ).getD i 0)).latency = 11.2
    ∧ (performRealPortTest fun i =>
        Except.ok (([10, 12, 11, 13, 10] : List ℚ).getD i 0)).jitter = 2 := by
  have hl : latenciesOf (fun i => Except.ok (([10, 12, 11, 13, 10] : List ℚ).getD i 0))
      = [10, 12, 11, 13, 10] := rfl
  have h1 : |(12 : ℚ) - 10| = 2 := abs_eval _ _ (Or.inl (by norm_num)) (by norm_num)
  have h2 : |(11 : ℚ) - 12| = 1 := abs_eval _ _ (Or.inr (by norm_num)) (by norm_num)
  have h3 : |(13 : ℚ) - 11| = 2 := abs_eval _ _ (Or.inl (by norm_num)) (by norm_num)
  have h4 : |(10 : ℚ) - 13| = 3 := abs_eval _ _ (Or.inr (by norm_num)) (by norm_num)
  have hd : consecAbsDiffs [10, 12, 11, 13, 10] = [2, 1, 2, 3] := by
    simp [consecAbsDiffs, h1, h2, h3, h4]
  have havg : avgOf [10, 12, 11, 13, 10] = 56/5 := by
    simp [avgOf, sumList]
    norm_num
  have hjit : jitterRawOf [10, 12, 11, 13, 10] = 2 := by
    simp only [jitterRawOf, hd]
    norm_num [sumList]
  rw [performRealPortTest_fields, hl]
  constructor
  · show round1 (avgOf [10, 12, 11, 13, 10]) = 11.2
    rw [havg, round1, jsRound_eq _ 112 (by norm_num) (by norm_num)]
    norm_num
  · show round1 (jitterRawOf [10, 12, 11, 13, 10]) = 2
    rw [hjit, round1, jsRound_eq _ 20 (by norm_num) (by norm_num)]
    norm_num

/-- C8: on non-negative inputs the JavaScript rounding `Math.round(x*10)/10`
coincides with round-half-away-from-zero on the value scaled by 10, and both
returned fields of both port tests are exactly that rounding of the computed
mean latency and jitter. -/
theorem rounding_is_half_away_from_zero :
    (∀ q : ℚ, 0 ≤ q → round1 q = specRound1 q)
    ∧ (∀ attempt : ℕ → Except ConnErr ℚ,
        (performRealPortTest attempt).latency = round1 (avgOf (latenciesOf attempt))
        ∧ (performRealPortTest attempt).jitter = round1 (jitterRawOf (latenciesOf attempt)))
    ∧ (∀ (port : ℕ) (rS : ℚ) (rB rV : ℕ → ℚ),
        (simulatePortTest port rS rB rV).latency
            = round1 (sumList (simLatencies rB rV) / ((simLatencies rB rV).length : ℚ))
        ∧ (simulatePortTest port rS rB rV).jitter
            = round1 (sumList (consecAbsDiffs (simLatencies rB rV))
                / (((simLatencies rB rV).length - 1 : ℕ) : ℚ))) := by
  refine ⟨fun q h => round1_eq_specRound1 h, fun attempt => ⟨rfl, rfl⟩, ?_⟩
  intro port rS rB rV
  refine ⟨rfl, ?_⟩
  rw [simulatePortTest_fields]
  show round1 _ = _
  have hlen : (simLatencies rB rV).length = 5 := by simp [simLatencies]
  rw [if_pos (by rw [hlen]; norm_num)]

/-- Witness for C8: the rounding coincidence at the concrete value 11.25. -/
theorem rounding_is_half_away_from_zero_witness :
    (0 : ℚ) ≤ 11.25 ∧ round1 11.25 = specRound1 11.25 :=
  ⟨by norm_num, rounding_is_half_away_from_zero.1 11.25 (by norm_num)⟩

lemma avgJitterOf_allFalse (results : List PortResult)
    (hfail : ∀ r ∈ results, r.success = false) : avgJitterOf results = 0 := by
  unfold avgJitterOf
  have he : results.filter (fun r => r.success) = [] := by
    rw [List.filter_eq_nil_iff]
    intro r hr
    simp [hfail r hr]
  simp [he]

lemma avgJitterOf_eq_spec (results : List PortResult) :
    avgJitterOf results = specAvgJitter results := by
  unfold avgJitterOf specAvgJitter
  by_cases he : results.filter (fun r => r.success) = []
  · simp [he]
  · have hpos : 0 < (results.filter fun r => r.success).length := List.length_pos.mpr he
    simp only [List.length_map, if_pos hpos, sumList_eq_sum,
      List.isEmpty_iff, if_neg he]

/-- C2: the real route's aggregate jitter is the mean of `jitterMs` over
`success = true` entries only (0 when none succeeds); the simulated route
averages over all entries, which coincides with that mean because every
result list the simulated probe can produce has all entries successful. -/
theorem avg_jitter_over_successful_only :
    (∀ results : List PortResult, avgJitterOf results = specAvgJitter results)
    ∧ (∀ results : List PortResult, (∀ r ∈ results, r.success = false) →
        avgJitterOf results = 0)
    ∧ (∀ results : List PortResult, results ≠ [] → (∀ r ∈ results, r.success = true) →
        avgJitterSim results = specAvgJitter results)
    ∧ (∀ (port : ℕ) (rS : ℚ) (rB rV : ℕ → ℚ), 0 ≤ rS → rS < 1 →
        (simulatePortTest port rS rB rV).success = true) := by
  refine ⟨avgJitterOf_eq_spec, fun results h => avgJitterOf_allFalse results h, ?_, ?_⟩
  · intro results hne hsucc
    have hf : results.filter (fun r => r.success) = results :=
      List.filter_eq_self.mpr hsucc
    unfold avgJitterSim specAvgJitter
    rw [hf, if_neg (by simpa [List.isEmpty_iff] using hne), foldl_add_proj, zero_add]
  · intro port rS rB rV h0 h1
    rw [simulatePortTest_fields]
    have h := simReceived_bounds port h0 h1
    simp only [decide_eq_true_iff]
    omega

/-- Witness for C2: an all-failed list averages to 0, and a concrete
all-successful list agrees with the spec-side mean. -/
theorem avg_jitter_over_successful_only_witness :
    avgJitterOf [⟨false, 0, 0, 5, 0, 5⟩] = 0
    ∧ avgJitterSim [⟨true, 10, 2, 5, 5, 0⟩] = specAvgJitter [⟨true, 10, 2, 5, 5, 0⟩] :=
  ⟨avg_jitter_over_successful_only.2.1 [⟨false, 0, 0, 5, 0, 5⟩]
      (by intro r hr; simp at hr; rw [hr]),
   avg_jitter_over_successful_only.2.2.1 [⟨true, 10, 2, 5, 5, 0⟩]
      (List.cons_ne_nil _ _) (by intro r hr; simp at hr; rw [hr])⟩

lemma foldl_set_getElem? {γ : Type} (g : ℕ → γ) :
    ∀ (order : List ℕ) (acc : List γ) (j : ℕ),
      (order.foldl (fun a i => a.set i (g i)) acc)[j]?
        = if j ∈ order ∧ j < acc.length then some (g j) else acc[j]? := by
  intro order
  induction order with
  | nil => intro acc j; simp
  | cons i rest ih =>
    intro acc j
    simp only [List.foldl_cons]
    rw [ih]
    by_cases hjr : j ∈ rest
    · by_cases hjl : j < acc.length
      · rw [if_pos ⟨hjr, by simpa using hjl⟩, if_pos ⟨List.mem_cons_of_mem i hjr, hjl⟩]
      · rw [if_neg (by simp; intro _; simpa using hjl),
          if_neg (by simp; intro _; simpa using hjl)]
        rw [List.getElem?_set]
        split
        · split
          · omega
          · rw [List.getElem?_eq_none (by omega)]
        · rfl
    · rw [if_neg (by simp [hjr])]
      rw [List.getElem?_set]
      by_cases hij : i = j
      · subst hij
        by_cases hil : i < acc.length
        · rw [if_pos rfl, if_pos hil, if_pos ⟨List.mem_cons_self i rest, hil⟩]
        · rw [if_pos rfl, if_neg hil, if_neg (by simp [hil]),
            List.getElem?_eq_none (by omega)]
      · rw [if_neg hij, if_neg (by simp [hjr]; intro h; exact absurd h.symm hij)]

lemma promiseAllSched_eq {α β : Type} (tasks : List α) (worker : α → β)
    (ct : ℕ → ℕ) : promiseAllSched tasks worker ct = tasks.map worker := by
  unfold promiseAllSched fillSlots
  have hperm :=
    List.perm_insertionSort (fun i j => ct i ≤ ct j) (List.range tasks.length)
  have hmem : ∀ j, (j ∈ (List.range tasks.length).insertionSort fun i j => ct i ≤ ct j)
      ↔ j < tasks.length := by
    intro j
    rw [hperm.mem_iff, List.mem_range]
  have hslots :
      (((List.range tasks.length).insertionSort fun i j => ct i ≤ ct j).foldl
          (fun acc i => acc.set i (tasks[i]?.map worker))
          (List.replicate tasks.length (none : Option β)))
        = tasks.map fun t => some (worker t) := by
    apply List.ext_getElem?
    intro j
    rw [foldl_set_getElem?]
    by_cases hj : j < tasks.length
    · rw [if_pos ⟨(hmem j).mpr hj, by simpa using hj⟩,
        List.getElem?_eq_getElem hj, List.getElem?_eq_getElem (by simpa using hj)]
      simp
    · rw [if_neg (by simp [hmem]; omega),
        List.getElem?_eq_none (by simpa using Nat.le_of_not_lt hj),
        List.getElem?_eq_none (by simpa using Nat.le_of_not_lt hj)]
  dsimp only
  rw [hslots, List.filterMap_map]
  show List.filterMap (some ∘ worker) tasks = List.map worker tasks
  rw [List.filterMap_eq_map]

lemma runProbeReal_fields (targets : List TargetPort)
    (attempt : ℕ → ℕ → Except ConnErr ℚ) (ct : ℕ → ℕ) :
    runProbeReal targets attempt ct
      = { results := promiseAllSched targets
            (fun t => (t, performRealPortTest (attempt t.port))) ct
          avgJitter := round1 (avgJitterOf ((promiseAllSched targets
            (fun t => (t, performRealPortTest (attempt t.port))) ct).map Prod.snd)) } :=
  rfl

/-- C5: for every target list and every interleaving of per-port completion
times, the joined result list corresponds 1:1 and in-order to the input list;
two different completion schedules produce identical output. -/
theorem results_preserve_target_order :
    (∀ (α β : Type) (tasks : List α) (worker : α → β) (ct ct' : ℕ → ℕ),
      promiseAllSched tasks worker ct = tasks.map worker
      ∧ promiseAllSched tasks worker ct = promiseAllSched tasks worker ct')
    ∧ (∀ (targets : List TargetPort) (attempt : ℕ → ℕ → Except ConnErr ℚ)
        (ct : ℕ → ℕ),
      (runProbeReal targets attempt ct).results
        = targets.map fun t => (t, performRealPortTest (attempt t.port))) := by
  constructor
  · intro α β tasks worker ct ct'
    exact ⟨promiseAllSched_eq tasks worker ct,
      (promiseAllSched_eq tasks worker ct).trans (promiseAllSched_eq tasks worker ct').symm⟩
  · intro targets attempt ct
    rw [runProbeReal_fields]
    exact promiseAllSched_eq targets _ ct

lemma performRealPortTest_allFail (e : ConnErr) :
    performRealPortTest (fun _ => Except.error e)
      = { success := false, latency := 0, jitter := 0,
          packetsSent := 5, packetsReceived := 0, packetsLost := 5 } := by
  have hl : latenciesOf (fun _ => Except.error e) = [] := rfl
  rw [performRealPortTest_fields, hl, avgOf_nil, jitterRawOf_nil, round1_zero]
  rfl

/-- C6: connection failures never escape the port test or the aggregator —
with every attempt on every port failing, the probe still returns a normal
report in which every port has `success = false`, `packetsReceived = 0`,
`packetsLost = 5`, and the aggregate jitter is 0. -/
theorem unreachable_host_degrades_gracefully (e : ConnErr)
    (targets : List TargetPort) (ct : ℕ → ℕ) :
    (∀ tr ∈ (runProbeReal targets (fun _ _ => Except.error e) ct).results,
      tr.2.success = false ∧ tr.2.packetsReceived = 0 ∧ tr.2.packetsLost = 5)
    ∧ (runProbeReal targets (fun _ _ => Except.error e) ct).avgJitter = 0 := by
  have hres : (runProbeReal targets (fun _ _ => Except.error e) ct).results
      = targets.map fun t => (t, performRealPortTest fun _ => Except.error e) := by
    rw [runProbeReal_fields]
    exact promiseAllSched_eq targets _ ct
  constructor
  · intro tr htr
    rw [hres] at htr
    obtain ⟨t, _, rfl⟩ := List.mem_map.mp htr
    rw [performRealPortTest_allFail]
    exact ⟨rfl, rfl, rfl⟩
  · rw [runProbeReal_fields]
    show round1 (avgJitterOf _) = 0
    rw [promiseAllSched_eq]
    have hzero : avgJitterOf ((targets.map fun t =>
        (t, performRealPortTest fun _ => Except.error e)).map Prod.snd) = 0 := by
      apply avgJitterOf_allFalse
      intro r hr
      rw [List.map_map] at hr
      obtain ⟨t, _, rfl⟩ := List.mem_map.mp hr
      show (performRealPortTest fun _ => Except.error e).success = false
      rw [performRealPortTest_allFail]
    rw [hzero, round1_zero]

/-- Witness for C6: the concrete all-unreachable probe over the configured
ports returns aggregate jitter 0, and its HTTP-port entry is a failed result. -/
theorem unreachable_host_degrades_gracefully_witness :
    (runProbeReal TEST_PORTS (fun _ _ => Except.error ConnErr.timeout)
        fun _ => 0).avgJitter = 0
    ∧ (performRealPortTest fun _ => Except.error ConnErr.timeout).success = false := by
  have h := unreachable_host_degrades_gracefully ConnErr.timeout TEST_PORTS fun _ => 0
  refine ⟨h.2, ?_⟩
  have hmem : ((⟨80, "HTTP", "Web Server"⟩ : TargetPort),
        performRealPortTest fun _ => Except.error ConnErr.timeout)
      ∈ (runProbeReal TEST_PORTS (fun _ _ => Except.error ConnErr.timeout)
        fun _ => 0).results := by
    rw [runProbeReal_fields]
    rw [promiseAllSched_eq]
    exact List.mem_map_of_mem _ (List.mem_cons_self _ _)
  exact (h.1 _ hmem).1

lemma checkRateLimit_none (now : ℕ) (m : RateMap) (ip : String) (h : m ip = none) :
    checkRateLimit now m ip
      = (true, Function.update m ip (some ⟨1, now + RATE_WINDOW⟩)) := by
  unfold checkRateLimit
  rw [h]

lemma checkRateLimit_expired (now : ℕ) (m : RateMap) (ip : String) (r : RateRecord)
    (h : m ip = some r) (hexp : r.resetTime < now) :
    checkRateLimit now m ip
      = (true, Function.update m ip (some ⟨1, now + RATE_WINDOW⟩)) := by
  unfold checkRateLimit
  rw [h]
  dsimp only
  rw [if_pos hexp]

lemma checkRateLimit_saturated (now : ℕ) (m : RateMap) (ip : String) (r : RateRecord)
    (h : m ip = some r) (hexp : ¬ r.resetTime < now) (hcap : RATE_LIMIT ≤ r.count) :
    checkRateLimit now m ip = (false, m) := by
  unfold checkRateLimit
  rw [h]
  dsimp only
  rw [if_neg hexp, if_pos hcap]

lemma checkRateLimit_increment (now : ℕ) (m : RateMap) (ip : String) (r : RateRecord)
    (h : m ip = some r) (hexp : ¬ r.resetTime < now) (hcap : ¬ RATE_LIMIT ≤ r.count) :
    checkRateLimit now m ip
      = (true, Function.update m ip (some ⟨r.count + 1, r.resetTime⟩)) := by
  unfold checkRateLimit
  rw [h]
  dsimp only
  rw [if_neg hexp, if_neg hcap]

lemma checkRateLimit_count_le (now : ℕ) (m : RateMap) (ip : String)
    (hinv : ∀ s r, m s = some r → r.count ≤ RATE_LIMIT) :
    ∀ s r, (checkRateLimit now m ip).2 s = some r → r.count ≤ RATE_LIMIT := by
  intro s r hr
  cases hm : m ip with
  | none =>
    rw [checkRateLimit_none now m ip hm] at hr
    simp only [Function.update_apply] at hr
    by_cases hs : s = ip
    · rw [if_pos hs] at hr
      cases Option.some.inj hr
      show (1 : ℕ) ≤ RATE_LIMIT
      norm_num [RATE_LIMIT]
    · rw [if_neg hs] at hr
      exact hinv s r hr
  | some record =>
    by_cases hexp : record.resetTime < now
    · rw [checkRateLimit_expired now m ip record hm hexp] at hr
      simp only [Function.update_apply] at hr
      by_cases hs : s = ip
      · rw [if_pos hs] at hr
        cases Option.some.inj hr
        show (1 : ℕ) ≤ RATE_LIMIT
        norm_num [RATE_LIMIT]
      · rw [if_neg hs] at hr
        exact hinv s r hr
    · by_cases hcap : RATE_LIMIT ≤ record.count
      · rw [checkRateLimit_saturated now m ip record hm hexp hcap] at hr
        exact hinv s r hr
      · rw [checkRateLimit_increment now m ip record hm hexp hcap] at hr
        simp only [Function.update_apply] at hr
        by_cases hs : s = ip
        · rw [if_pos hs] at hr
          cases Option.some.inj hr
          show record.count + 1 ≤ RATE_LIMIT
          omega
        · rw [if_neg hs] at hr
          exact hinv s r hr

lemma runCalls_window (ip : String) : ∀ (ts : List ℕ) (m : RateMap) (c T : ℕ),
    m ip = some ⟨c, T⟩ → 1 ≤ c → c ≤ RATE_LIMIT → (∀ t ∈ ts, t ≤ T) →
    (runCalls m ip ts).1.count true = min (c + ts.length) RATE_LIMIT - c
    ∧ (runCalls m ip ts).2 ip = some ⟨min (c + ts.length) RATE_LIMIT, T⟩ := by
  intro ts
  induction ts with
  | nil =>
    intro m c T hm h1 hc _
    have hmin : min (c + ([] : List ℕ).length) RATE_LIMIT = c := by simp; omega
    have h0 : runCalls m ip ([] : List ℕ) = ([], m) := rfl
    constructor
    · rw [h0, hmin]
      simp
    · rw [h0, hmin]
      exact hm
  | cons t rest ih =>
    intro m c T hm h1 hc hts
    have ht : t ≤ T := hts t (by simp)
    have hrest : ∀ t' ∈ rest, t' ≤ T := fun t' h' => hts t' (by simp [h'])
    have hexp : ¬ (⟨c, T⟩ : RateRecord).resetTime < t := by
      show ¬ T < t
      omega
    have hrun : runCalls m ip (t :: rest)
        = ((checkRateLimit t m ip).1 :: (runCalls (checkRateLimit t m ip).2 ip rest).1,
           (runCalls (checkRateLimit t m ip).2 ip rest).2) := rfl
    by_cases hcap : RATE_LIMIT ≤ c
    · have hstep := checkRateLimit_saturated t m ip ⟨c, T⟩ hm hexp hcap
      obtain ⟨ih1, ih2⟩ := ih m c T hm h1 hc hrest
      rw [hrun, hstep]
      constructor
      · show (runCalls m ip rest).1.count true = _
        rw [ih1]
        simp only [List.length_cons]
        omega
      · show (runCalls m ip rest).2 ip = _
        rw [ih2]
        have : min (c + rest.length) RATE_LIMIT
            = min (c + (rest.length + 1)) RATE_LIMIT := by omega
        rw [this]
        rfl
    · have hstep := checkRateLimit_increment t m ip ⟨c, T⟩ hm hexp hcap
      have hm' : Function.update m ip (some ⟨c + 1, T⟩) ip = some ⟨c + 1, T⟩ :=
        Function.update_same ip _ m
      obtain ⟨ih1, ih2⟩ :=
        ih (Function.update m ip (some ⟨c + 1, T⟩)) (c + 1) T hm' (by omega)
          (by omega) hrest
      rw [hrun, hstep]
      constructor
      · show List.count true (true :: _) = _
        rw [List.count_cons_self, ih1]
        simp only [List.length_cons]
        omega
      · show (runCalls (Function.update m ip (some ⟨c + 1, T⟩)) ip rest).2 ip = _
        rw [ih2]
        have : min (c + 1 + rest.length) RATE_LIMIT
            = min (c + (rest.length + 1)) RATE_LIMIT := by omega
        rw [this]
        rfl

/-- C10: for every client IP, at most `RATE_LIMIT = 10` calls in one
60-second window return true (a saturated, unexpired record rejects without
change), the stored per-IP count never exceeds 10, and a call strictly after
`resetTime` restarts the count at 1. -/
theorem rate_limit_bounded_window :
    (∀ (now : ℕ) (m : RateMap) (ip : String),
      (∀ s r, m s = some r → r.count ≤ RATE_LIMIT) →
      ∀ s r, (checkRateLimit now m ip).2 s = some r → r.count ≤ RATE_LIMIT)
    ∧ (∀ (m : RateMap) (ip : String) (t0 : ℕ) (rest : List ℕ),
      m ip = none → (∀ t ∈ rest, t ≤ t0 + RATE_WINDOW) →
      (runCalls m ip (t0 :: rest)).1.count true = min (rest.length + 1) RATE_LIMIT
      ∧ (runCalls m ip (t0 :: rest)).1.count true ≤ 10)
    ∧ (∀ (now : ℕ) (m : RateMap) (ip : String) (r : RateRecord),
      m ip = some r → r.count = RATE_LIMIT → ¬ r.resetTime < now →
      checkRateLimit now m ip = (false, m))
    ∧ (∀ (now : ℕ) (m : RateMap) (ip : String) (r : RateRecord),
      m ip = some r → r.resetTime < now →
      (checkRateLimit now m ip).1 = true
      ∧ (checkRateLimit now m ip).2 ip = some ⟨1, now + RATE_WINDOW⟩) := by
  refine ⟨checkRateLimit_count_le, ?_, ?_, ?_⟩
  · intro m ip t0 rest hm hts
    have hstep := checkRateLimit_none t0 m ip hm
    have hm' : Function.update m ip (some ⟨1, t0 + RATE_WINDOW⟩) ip
        = some ⟨1, t0 + RATE_WINDOW⟩ := Function.update_same ip _ m
    have hRL : (1 : ℕ) ≤ RATE_LIMIT := by norm_num [RATE_LIMIT]
    obtain ⟨h1, _⟩ :=
      runCalls_window ip rest (Function.update m ip (some ⟨1, t0 + RATE_WINDOW⟩))
        1 (t0 + RATE_WINDOW) hm' (le_refl 1) hRL hts
    have hrun : runCalls m ip (t0 :: rest)
        = ((checkRateLimit t0 m ip).1
            :: (runCalls (checkRateLimit t0 m ip).2 ip rest).1,
           (runCalls (checkRateLimit t0 m ip).2 ip rest).2) := rfl
    rw [hrun, hstep]
    have hcnt : List.count true
        (true :: (runCalls (Function.update m ip (some ⟨1, t0 + RATE_WINDOW⟩)) ip rest).1)
          = min (rest.length + 1) RATE_LIMIT := by
      rw [List.count_cons_self, h1]
      omega
    have hRL10 : RATE_LIMIT = 10 := rfl
    exact ⟨hcnt, by rw [hcnt]; omega⟩
  · intro now m ip r hm hcount hexp
    exact checkRateLimit_saturated now m ip r hm hexp (le_of_eq hcount.symm)
  · intro now m ip r hm hexp
    rw [checkRateLimit_expired now m ip r hm hexp]
    exact ⟨rfl, Function.update_same ip _ m⟩

/-- Witness for C10: a single call for a fresh IP returns one success, within
the bound of 10. -/
theorem rate_limit_bounded_window_witness :
    (runCalls (fun _ => none) "client" [0]).1.count true = min 1 RATE_LIMIT
    ∧ (runCalls (fun _ => none) "client" [0]).1.count true ≤ 10 := by
  have h := rate_limit_bounded_window.2.1 (fun _ => none) "client" 0 [] rfl (by simp)
  simpa using h
